import Mathlib

/-
Verification development for the Kitako income-report backend.

The definitions below are shallow embeddings of the Python source:

* `backend/transactions/processors.py` — `TransactionProcessor` (row
  normalisation, amount/date parsing, transaction-type inference,
  transaction materialisation, upload status transitions) and the module
  level `process_file_upload` entry point;
* `backend/transactions/views.py` — the `process_file_upload` view;
* `backend/ai_processing/services.py` —
  `TransactionCategorizationService._parse_categorization_response`;
* `backend/reports/views.py` — `IncomeReportCreateView._calculate_report_data`,
  `_calculate_confidence_score`, `_detect_financial_anomalies`,
  `_calculate_monthly_trends` and the `download_report` view;
* `backend/reports/models.py` — `IncomeReport.save`,
  `generate_verification_code`, `generate_access_token`,
  `submit_for_signature_verification`, `approve_signature`,
  `reject_signature`.

Conventions: Python `Decimal`/`float` arithmetic is embedded as exact `ℚ`
(the constants involved, `30.44`, `0.1`, penalty values, are all exactly
representable); database rows become Lean structures; fallible operations
return `Option`; randomness (`random.choices`, `secrets.token_urlsafe`)
becomes an explicit seed stream; the non-terminating retry loops become
fuelled recursion returning `Option`.
-/

namespace Kitako

/-! ## String helpers (substring containment, Python truthiness) -/

/-- Tests whether `needle` is an initial segment of `hay` (character
lists); `startsWithL hay needle`. -/
def startsWithL : List Char → List Char → Bool
  | _, [] => true
  | [], _ :: _ => false
  | h :: t, n :: ns => h == n && startsWithL t ns

/-- Models Python's `needle in hay` substring test. -/
def containsSub (needle : List Char) : List Char → Bool
  | [] => startsWithL [] needle
  | h :: t => startsWithL (h :: t) needle || containsSub needle t

/-- Substring test on strings, Python `needle in hay`. -/
def strContainsSub (hay needle : String) : Bool :=
  containsSub needle.data hay.data

/-- Remove every occurrence of `needle` from the text, Python
`hay.replace(needle, '')`; the fuel (instantiated with the text length,
which always suffices since each step consumes at least one character)
keeps the recursion structural. -/
def eraseSubAux (needle : List Char) : ℕ → List Char → List Char
  | 0, rest => rest
  | _ + 1, [] => []
  | fuel + 1, h :: t =>
    if needle ≠ [] ∧ startsWithL (h :: t) needle then
      eraseSubAux needle fuel ((h :: t).drop needle.length)
    else h :: eraseSubAux needle fuel t

/-- Python `hay.replace(needle, '')` on strings. -/
def strRemoveAll (hay needle : String) : String :=
  String.mk (eraseSubAux needle.data hay.data.length hay.data)

/-- Python `str.strip()`: drop whitespace from both ends. -/
def trimChars (cs : List Char) : List Char :=
  ((cs.dropWhile Char.isWhitespace).reverse.dropWhile Char.isWhitespace).reverse

/-- Python `str.strip()` on strings. -/
def strTrim (s : String) : String :=
  String.mk (trimChars s.data)

/-- Python `str.lower()` (ASCII case folding suffices for the inputs the
pipeline compares). -/
def strLower (s : String) : String :=
  String.mk (s.data.map Char.toLower)

/-- Python truthiness of an optional string: present and non-empty. -/
def truthyStr : Option String → Bool
  | some s => s ≠ ""
  | none => false

/-! ## Decimal string parsing

Embeds Python's `decimal.Decimal(str)` constructor on the fragment the
pipeline can produce: optional surrounding whitespace, an optional sign,
an integer part and/or a fractional part, and an optional exponent.
An input outside this grammar yields `none` (the constructor raises). -/

/-- Numeric value of a list of decimal digits. -/
def digitsToNat (ds : List Char) : ℕ :=
  ds.foldl (fun a c => a * 10 + (c.toNat - '0'.toNat)) 0

/-- Value of a fractional digit block `.d₁d₂…dₙ` as a rational. -/
def fracToRat (ds : List Char) : ℚ :=
  (digitsToNat ds : ℚ) / (10 : ℚ) ^ ds.length

/-- Parse an optional exponent suffix `e±ddd`; returns the exponent and
requires the remainder to be empty. -/
def parseExponent : List Char → Option ℤ
  | [] => some 0
  | 'e' :: rest => parseExponentDigits rest
  | 'E' :: rest => parseExponentDigits rest
  | _ => none
where
  parseExponentDigits (rest : List Char) : Option ℤ :=
    let (sign, rest) : ℤ × List Char :=
      match rest with
      | '+' :: t => (1, t)
      | '-' :: t => (-1, t)
      | t => (1, t)
    let ds := rest.takeWhile Char.isDigit
    let tail := rest.drop ds.length
    if ds ≠ [] ∧ tail = [] then some (sign * digitsToNat ds) else none

/-- Model of `Decimal(s)`: `some q` when `s` is a valid decimal numeric
string, `none` when the constructor would raise. -/
def parseDecimalString (s : String) : Option ℚ :=
  let cs := trimChars s.data
  let (sign, cs) : ℚ × List Char :=
    match cs with
    | '+' :: t => (1, t)
    | '-' :: t => (-1, t)
    | t => (1, t)
  let intDigits := cs.takeWhile Char.isDigit
  let rest := cs.drop intDigits.length
  match rest with
  | '.' :: rest2 =>
    let fracDigits := rest2.takeWhile Char.isDigit
    let rest3 := rest2.drop fracDigits.length
    if intDigits = [] ∧ fracDigits = [] then none
    else
      match parseExponent rest3 with
      | some e => some (sign * ((digitsToNat intDigits : ℚ) + fracToRat fracDigits) * (10 : ℚ) ^ e)
      | none => none
  | _ =>
    if intDigits = [] then none
    else
      match parseExponent rest with
      | some e => some (sign * (digitsToNat intDigits : ℚ) * (10 : ℚ) ^ e)
      | none => none

/-! ## TransactionProcessor field parsing
(`backend/transactions/processors.py`) -/

/-- A raw cell value: CSV rows carry strings, spreadsheet rows can carry
native numbers (Python `int`/`float`). -/
inductive CellValue where
  | str (s : String)
  | num (q : ℚ)
deriving Repr, DecidableEq

/-- Model of `TransactionProcessor._parse_amount`. Numeric inputs are stored as
`Decimal(str(abs(x)))`; string inputs are cleaned of currency symbols and
thousands separators, parentheses become a leading minus, and the result is
fed to `Decimal`, defaulting to `0` when that raises. -/
def parseAmount : CellValue → ℚ
  | .num q => |q|
  | .str s =>
    let cleaned := strTrim (strRemoveAll (strRemoveAll (strRemoveAll s "₱") "PHP") ",")
    let cs := cleaned.data
    let cs :=
      if cs.head? = some '(' ∧ cs.getLast? = some ')' then
        '-' :: (cs.drop 1).dropLast
      else cs
    match parseDecimalString (String.mk cs) with
    | some q => q
    | none => 0

/-- Model of `TransactionProcessor._parse_date`. The source tries six `strptime`
formats in order and falls back to the current time when none matches, so
date parsing is total and never rejects a row. No claim in this development
depends on the numeric value of the parsed date, only on totality, so the
model keeps the (trimmed) raw text as the parsed date. -/
def parseDate (s : String) : String := strTrim s

/-- Accepted header synonyms for the date field. -/
def dateKeys : List String := ["date", "transaction_date", "txn_date", "datetime"]

/-- Accepted header synonyms for the amount field. -/
def amountKeys : List String := ["amount", "value", "sum", "total"]

/-- Accepted header synonyms for the description field. -/
def descriptionKeys : List String :=
  ["description", "details", "memo", "reference", "particulars"]

/-- Accepted header synonyms for the reference field. -/
def referenceKeys : List String := ["reference", "ref", "transaction_id", "txn_id"]

/-- Accepted header synonyms for the type-hint field. -/
def typeKeys : List String := ["type", "transaction_type", "txn_type", "debit_credit"]

/-- A raw row: header/value pairs as produced by `csv.DictReader` or a
spreadsheet reader (string cells). -/
abbrev Row := List (String × String)

/-- The dict comprehension `{k.lower().strip(): v for k, v in row.items()}`:
keys are lowercased and trimmed.  (The `if v is not None` guard never drops
string cells.) -/
def normalizeRow (row : Row) : Row :=
  row.map fun kv => (strTrim (strLower kv.fst), kv.snd)

/-- Python dict lookup on the normalised row: when two normalised keys
collide the later binding wins, as in a dict comprehension. -/
def dictFind (row : Row) (k : String) : Option String :=
  row.reverse.lookup k

/-- Model of `TransactionProcessor._find_field_value`: the first synonym present in
the row wins. -/
def findFieldValue (row : Row) : List String → Option String
  | [] => none
  | k :: rest =>
    match dictFind row k with
    | some v => some v
    | none => findFieldValue row rest

/-- Model of `TransactionProcessor._infer_transaction_type`: explicit type hint
first, then description keywords (income before expense), then the sign of
the amount. -/
def inferTransactionType (amount : ℚ) (typeHint : Option String)
    (description : String) : String :=
  let byHint : Option String :=
    match typeHint with
    | some th =>
      if th ≠ "" then
        let ts := strLower th
        if strContainsSub ts "debit" || strContainsSub ts "expense" || strContainsSub ts "out" then
          some "expense"
        else if strContainsSub ts "credit" || strContainsSub ts "income" || strContainsSub ts "in" then
          some "income"
        else none
      else none
    | none => none
  match byHint with
  | some t => t
  | none =>
    let dl := strLower description
    if ["salary", "payment", "income", "received", "deposit", "credit"].any
        (fun k => strContainsSub dl k) then "income"
    else if ["purchase", "payment", "bill", "fee", "charge", "debit"].any
        (fun k => strContainsSub dl k) then "expense"
    else if 0 ≤ amount then "income" else "expense"

/-- The normalised fields extracted from one raw row. -/
structure TxnData where
  date : String
  amount : ℚ
  description : String
  reference_number : String
  transaction_type : String
deriving Repr, DecidableEq

/-- Model of `TransactionProcessor._parse_transaction_row`: resolve date and amount
through the synonym lists (Python truthiness: a missing key or an empty
value skips the row), then fill the remaining fields with defaults.  All
downstream parsing is total, so the `except` clause is unreachable. -/
def parseTransactionRow (row : Row) : Option TxnData :=
  let normalized := normalizeRow row
  match findFieldValue normalized dateKeys with
  | none => none
  | some dv =>
    if dv = "" then none
    else
      match findFieldValue normalized amountKeys with
      | none => none
      | some av =>
        if av = "" then none
        else
          let amount := parseAmount (.str av)
          let description :=
            match findFieldValue normalized descriptionKeys with
            | some s => if s ≠ "" then s else "No description"
            | none => "No description"
          let reference :=
            match findFieldValue normalized referenceKeys with
            | some s => if s ≠ "" then s else ""
            | none => ""
          let tv := findFieldValue normalized typeKeys
          some { date := parseDate dv
                 amount := amount
                 description := description
                 reference_number := reference
                 transaction_type := inferTransactionType amount tv description }

/-! ## Transaction materialisation and the upload state machine -/

/-- A persisted `Transaction` row (`backend/transactions/models.py`),
restricted to the fields the pipeline writes. -/
structure Transaction where
  user : ℕ
  uploadId : ℕ
  date : String
  amount : ℚ
  description : String
  reference_number : String
  transaction_type : String
  category : String
  source_platform : String
  ai_categorized : Bool
deriving Repr, DecidableEq

/-- A `FileUpload` row together with its environment: the rows its stored
file parses to (`rows` for the delimited/spreadsheet path, `pdfData` for
the PDF text/mock path) and the transactions currently attached to it. -/
structure Upload where
  id : ℕ
  user : ℕ
  original_filename : String
  source : String
  processing_status : String
  processing_error : String
  rows : List Row
  pdfData : List TxnData
  transactions : List Transaction
deriving Repr, DecidableEq

/-- Model of `TransactionProcessor._create_transactions`: one `Transaction` per
parsed row, category defaulted to `other`, provenance from the upload. -/
def createTransactions (u : Upload) (datas : List TxnData) : List Transaction :=
  datas.map fun d =>
    { user := u.user
      uploadId := u.id
      date := d.date
      amount := d.amount
      description := d.description
      reference_number := d.reference_number
      transaction_type := d.transaction_type
      category := "other"
      source_platform := u.source
      ai_categorized := false }

/-- Lower-cased extension of a filename, Python `name.lower().split('.')[-1]`:
the segment after the last dot, or the whole (lowered) name when there is
no dot. -/
def fileExtension (name : String) : String :=
  String.mk (((strLower name).data.reverse.takeWhile (· ≠ '.')).reverse)

/-- Model of `TransactionProcessor.process`: unconditionally moves the status to
`processing`, dispatches on the file extension, materialises the parsed
rows, and finishes in `awaiting_review`; an unsupported extension raises
and the handler records `failed` with the error text.  Note the method
never inspects the current status before running. -/
def processorProcess (u : Upload) : Upload :=
  let u1 := { u with processing_status := "processing" }
  let ext := fileExtension u.original_filename
  if ext = "csv" ∨ ext = "xlsx" ∨ ext = "xls" then
    let created := createTransactions u1 (u1.rows.filterMap parseTransactionRow)
    { u1 with
        transactions := u1.transactions ++ created
        processing_status := "awaiting_review" }
  else if ext = "pdf" then
    let created := createTransactions u1 u1.pdfData
    { u1 with
        transactions := u1.transactions ++ created
        processing_status := "awaiting_review" }
  else
    { u1 with
        processing_status := "failed"
        processing_error := "Unsupported file type: " ++ ext }

/-- The `process_file_upload` view (`backend/transactions/views.py`):
short-circuits only when the status is `processed` or `processing`,
otherwise runs the processor. -/
def viewProcessFileUpload (u : Upload) : Upload :=
  if u.processing_status = "processed" then u
  else if u.processing_status = "processing" then u
  else processorProcess u

/-! ## JSON values and a parser for Python's `json.loads`

The fragment covers everything the categorization pipeline exchanges:
null, booleans, numbers, strings (with single-character escapes), arrays
and objects.  `\uXXXX` escapes are outside the fragment (they never occur
in the inputs reasoned about below). -/

/-- A JSON value. -/
inductive Json where
  | null
  | bool (b : Bool)
  | num (q : ℚ)
  | str (s : String)
  | arr (elems : List Json)
  | obj (members : List (String × Json))

/-- Drop the JSON whitespace characters. -/
def skipWs (cs : List Char) : List Char :=
  cs.dropWhile fun c => c = ' ' ∨ c = '\n' ∨ c = '\t' ∨ c = '\r'

/-- Parse the body of a JSON string after the opening quote; returns the
content and the remainder after the closing quote. -/
def parseJsonStringAux : List Char → Option (List Char × List Char)
  | [] => none
  | '"' :: rest => some ([], rest)
  | '\\' :: e :: rest =>
    let esc : Option Char :=
      if e = '"' then some '"'
      else if e = '\\' then some '\\'
      else if e = '/' then some '/'
      else if e = 'n' then some '\n'
      else if e = 't' then some '\t'
      else if e = 'r' then some '\r'
      else if e = 'b' then some (Char.ofNat 8)
      else if e = 'f' then some (Char.ofNat 12)
      else none
    match esc with
    | some c =>
      match parseJsonStringAux rest with
      | some (s, r) => some (c :: s, r)
      | none => none
    | none => none
  | c :: rest =>
    match parseJsonStringAux rest with
    | some (s, r) => some (c :: s, r)
    | none => none

/-- Parse the exponent suffix of a JSON number. -/
def jsonNumWithExp (base : ℚ) (r : List Char) : Option (Json × List Char) :=
  let (es, r2) : ℤ × List Char :=
    match r with
    | '+' :: t => (1, t)
    | '-' :: t => (-1, t)
    | t => (1, t)
  let eds := r2.takeWhile Char.isDigit
  if eds = [] then none
  else some (.num (base * (10 : ℚ) ^ (es * (digitsToNat eds : ℤ))), r2.drop eds.length)

/-- Parse a JSON number (strict grammar: no leading zeros, a dot requires
fraction digits). -/
def parseJsonNumber (cs : List Char) : Option (Json × List Char) :=
  let (sign, cs1) : ℚ × List Char :=
    match cs with
    | '-' :: t => (-1, t)
    | t => (1, t)
  let intDs := cs1.takeWhile Char.isDigit
  let rest := cs1.drop intDs.length
  if intDs = [] then none
  else if 1 < intDs.length ∧ intDs.head? = some '0' then none
  else
    let (hadDot, fracDs, rest2) : Bool × List Char × List Char :=
      match rest with
      | '.' :: r2 => (true, r2.takeWhile Char.isDigit, r2.drop (r2.takeWhile Char.isDigit).length)
      | _ => (false, [], rest)
    if hadDot ∧ fracDs = [] then none
    else
      let base := sign * ((digitsToNat intDs : ℚ) + fracToRat fracDs)
      match rest2 with
      | 'e' :: r3 => jsonNumWithExp base r3
      | 'E' :: r3 => jsonNumWithExp base r3
      | _ => some (.num base, rest2)

mutual

/-- Parse one JSON value; fuel bounds the recursion depth (each recursive
call consumes at least one character first, so `length + 1` fuel always
suffices). -/
def parseJsonValue : ℕ → List Char → Option (Json × List Char)
  | 0, _ => none
  | fuel + 1, cs =>
    match skipWs cs with
    | [] => none
    | 'n' :: t => if startsWithL t ['u', 'l', 'l'] then some (.null, t.drop 3) else none
    | 't' :: t => if startsWithL t ['r', 'u', 'e'] then some (.bool true, t.drop 3) else none
    | 'f' :: t => if startsWithL t ['a', 'l', 's', 'e'] then some (.bool false, t.drop 4) else none
    | '"' :: t =>
      match parseJsonStringAux t with
      | some (s, rest) => some (.str (String.mk s), rest)
      | none => none
    | '[' :: t =>
      match skipWs t with
      | ']' :: r => some (.arr [], r)
      | t2 =>
        match parseJsonValue fuel t2 with
        | some (v, rest) => parseJsonArrayRest fuel rest [v]
        | none => none
    | '{' :: t =>
      match skipWs t with
      | '}' :: r => some (.obj [], r)
      | t2 => parseJsonObjMember fuel t2 []
    | c :: t => if c = '-' ∨ c.isDigit then parseJsonNumber (c :: t) else none

/-- Parse the rest of a JSON array after at least one element. -/
def parseJsonArrayRest : ℕ → List Char → List Json → Option (Json × List Char)
  | 0, _, _ => none
  | fuel + 1, cs, acc =>
    match skipWs cs with
    | ']' :: r => some (.arr acc.reverse, r)
    | ',' :: r =>
      match parseJsonValue fuel r with
      | some (v, rest) => parseJsonArrayRest fuel rest (v :: acc)
      | none => none
    | _ => none

/-- Parse the members of a JSON object (positioned at a key). -/
def parseJsonObjMember : ℕ → List Char → List (String × Json) → Option (Json × List Char)
  | 0, _, _ => none
  | fuel + 1, cs, acc =>
    match skipWs cs with
    | '"' :: t =>
      match parseJsonStringAux t with
      | some (k, rest) =>
        match skipWs rest with
        | ':' :: r2 =>
          match parseJsonValue fuel r2 with
          | some (v, rest2) =>
            match skipWs rest2 with
            | ',' :: r3 => parseJsonObjMember fuel r3 ((String.mk k, v) :: acc)
            | '}' :: r3 => some (.obj (((String.mk k, v) :: acc).reverse), r3)
            | _ => none
          | none => none
        | _ => none
      | none => none
    | _ => none

end

/-- Python `json.loads`: parse one value, allow only trailing whitespace. -/
def jsonLoads (s : String) : Option Json :=
  match parseJsonValue (s.data.length + 1) s.data with
  | some (v, rest) => if skipWs rest = [] then some v else none
  | none => none

/-! ## `_parse_categorization_response`
(`backend/ai_processing/services.py`) -/

/-- Index of the first occurrence of `c`. -/
def firstIdxOf (c : Char) : List Char → Option ℕ
  | [] => none
  | h :: t => if h = c then some 0 else (firstIdxOf c t).map (· + 1)

/-- The substring matched by `re.search(r'\[.*\]', s, re.DOTALL)`: from the
first `[` to the last `]`, when the last `]` lies after the first `[`.
The last-`]` position is located by searching the reversed text. -/
def greedyBracketExtract (s : String) : Option String :=
  let cs := s.data
  match firstIdxOf '[' cs, firstIdxOf ']' cs.reverse with
  | some i, some jr =>
    let j := cs.length - 1 - jr
    if i < j then some (String.mk ((cs.drop i).take (j - i + 1))) else none
  | _, _ => none

/-- Model of `TransactionCategorizationService._parse_categorization_response`:
when the greedy bracket regex matches, parse the matched substring and
return `[]` if that raises; only when there is no match at all is the
whole response handed to `json.loads`, again with `[]` on failure. -/
def parseCategorizationResponse (s : String) : Json :=
  match greedyBracketExtract s with
  | some sub => (jsonLoads sub).getD (.arr [])
  | none => (jsonLoads s).getD (.arr [])

/-- Drop characters up to (and keeping) the first `[`. -/
def dropToBracket : List Char → Option (List Char)
  | [] => none
  | '[' :: t => some ('[' :: t)
  | _ :: t => dropToBracket t

/-- Take a balanced `[...]` block from text that starts at a `[`. -/
def takeBalanced : List Char → ℕ → List Char → Option (List Char)
  | [], _, _ => none
  | c :: t, depth, acc =>
    if c = '[' then takeBalanced t (depth + 1) (c :: acc)
    else if c = ']' then
      if depth = 1 then some (c :: acc).reverse else takeBalanced t (depth - 1) (c :: acc)
    else takeBalanced t depth (c :: acc)

/-- The first balanced `[...]` substring of `s`, if any. -/
def firstBalancedBracket (s : String) : Option String :=
  (dropToBracket s.data).bind fun cs => (takeBalanced cs 0 []).map String.mk

/-- Modelled from the words of the claim (not from the source): first
attempt to parse the whole response directly as a JSON array; only if that
fails, locate the first balanced `[...]` substring and parse that; if both
attempts fail, return the empty result. -/
def claimOrderedParse (s : String) : Json :=
  match jsonLoads s with
  | some (.arr l) => .arr l
  | _ =>
    match firstBalancedBracket s with
    | some sub => (jsonLoads sub).getD (.arr [])
    | none => .arr []

/-- Index of the last occurrence of `c`, by direct recursion. -/
def lastIdxOf (c : Char) : List Char → Option ℕ
  | [] => none
  | h :: t =>
    match lastIdxOf c t with
    | some j => some (j + 1)
    | none => if h = c then some 0 else none

/-- The amended extraction, written from the amended claim: the substring
from the first `[` to the last `]` when the latter lies strictly after the
former, located by direct first/last index computations. -/
def amendedExtract (s : String) : Option String :=
  let cs := s.data
  match firstIdxOf '[' cs, lastIdxOf ']' cs with
  | some i, some j => if i < j then some (String.mk ((cs.drop i).take (j - i + 1))) else none
  | _, _ => none

/-- The amended parsing discipline: parse the first-`[`-to-last-`]`
substring when one exists (empty result if it is not valid JSON, with no
second attempt); otherwise parse the whole response, empty on failure. -/
def amendedOrderedParse (s : String) : Json :=
  match amendedExtract s with
  | some sub => (jsonLoads sub).getD (.arr [])
  | none => (jsonLoads s).getD (.arr [])

/-! ## Report-side data model (`backend/reports/models.py`) -/

/-- A calendar date. -/
structure RDate where
  year : ℕ
  month : ℕ
  day : ℕ
deriving Repr, DecidableEq

/-- Calendar order on dates (lexicographic on year, month, day). -/
def rdateLE (a b : RDate) : Bool :=
  a.year < b.year ∨
    (a.year = b.year ∧ (a.month < b.month ∨ (a.month = b.month ∧ a.day ≤ b.day)))

/-- Day number of a proleptic-Gregorian date (days-from-civil algorithm);
differences of these ordinals are exactly Python's `(d2 - d1).days`. -/
def toOrdinal (dt : RDate) : ℤ :=
  let y : ℤ := if dt.month ≤ 2 then (dt.year : ℤ) - 1 else dt.year
  let era : ℤ := (if 0 ≤ y then y else y - 399) / 400
  let yoe : ℤ := y - era * 400
  let mp : ℤ := ((dt.month : ℤ) + 9) % 12
  let doy : ℤ := (153 * mp + 2) / 5 + (dt.day : ℤ) - 1
  let doe : ℤ := yoe * 365 + yoe / 4 - yoe / 100 + doy
  era * 146097 + doe - 719468

/-- A persisted `Transaction` row as seen by report aggregation. -/
structure DbTxn where
  user : ℕ
  date : RDate
  amount : ℚ
  transaction_type : String
  category : String
  source_platform : String
deriving Repr, DecidableEq

/-- An `IncomeReport` row, restricted to the fields the verified code reads
or writes. -/
structure Report where
  user : ℕ
  date_from : RDate
  date_to : RDate
  title : String
  summary : String
  total_income : ℚ
  total_expenses : ℚ
  net_income : ℚ
  average_monthly_income : ℚ
  income_breakdown : List (String × ℚ)
  expense_breakdown : List (String × ℚ)
  monthly_trends : List ((ℕ × ℕ) × String × ℚ)
  data_sources : List String
  transaction_count : ℕ
  confidence_score : ℚ
  anomalies_detected : List String
  pdf_file : Option String
  file_size : Option ℕ
  document_hash : String
  verification_code : String
  is_signature_submitted : Bool
  signature_verification_status : String
  signature_submitted_at : Option ℕ
  signature_approved_at : Option ℕ
  signature_approved_by : Option ℕ
  admin_notes : String
  qr_code_url : String
  status : String
  generation_error : String
  is_public : Bool
  access_token : String
  expires_at : Option ℕ
  download_count : ℕ
deriving Repr, DecidableEq

/-! ## Aggregation and scoring
(`IncomeReportCreateView` in `backend/reports/views.py`) -/

/-- Transactions a report aggregates: the owner's transactions whose date
lies in the requested (inclusive) range. -/
def rangeTransactions (r : Report) (allTxns : List DbTxn) : List DbTxn :=
  allTxns.filter fun t =>
    t.user = r.user && rdateLE r.date_from t.date && rdateLE t.date r.date_to

/-- Count of uncategorised transactions,
`Q(category__isnull=True) | Q(category='')`; the model's non-nullable
category field represents both null and empty as `""`. -/
def uncategorizedCount (txns : List DbTxn) : ℕ :=
  (txns.filter fun t => t.category = "").length

/-- Model of `IncomeReportCreateView._calculate_confidence_score`, mirroring the
source's sequential penalty subtraction and final floor at zero.  The
source also receives the expense queryset but never reads it. -/
def calcConfidenceScore (txns incomeTxns _expenseTxns : List DbTxn)
    (dataSources : List String) : ℚ :=
  let score : ℚ := 100
  let score := if txns.length < 10 then score - 30
    else if txns.length < 50 then score - 15 else score
  let score := if dataSources.length < 2 then score - 15 else score
  let pct : ℚ :=
    if 0 < txns.length then ((uncategorizedCount txns : ℚ) / (txns.length : ℚ)) * 100 else 0
  let score := if 50 < pct then score - 20 else if 20 < pct then score - 10 else score
  let score := if incomeTxns.length = 0 then score - 40 else score
  max score 0

/-- Modelled from the words of the claim: the confidence score is 100 minus
the four fixed penalties, floored at zero.  Exceeding 50% (resp. 20%)
uncategorised is expressed arithmetically: `n < 2·uncat` (resp.
`n < 5·uncat`). -/
def specConfidenceScore (n uncat sources incomeCount : ℕ) : ℚ :=
  let p1 : ℚ := if n < 10 then 30 else if n < 50 then 15 else 0
  let p2 : ℚ := if sources < 2 then 15 else 0
  let p3 : ℚ := if n < 2 * uncat then 20 else if n < 5 * uncat then 10 else 0
  let p4 : ℚ := if incomeCount = 0 then 40 else 0
  max (100 - (p1 + p2 + p3 + p4)) 0

/-- Model of `period_days`: `(date_to - date_from).days + 1` (both endpoints
included). -/
def periodDays (r : Report) : ℤ :=
  toOrdinal r.date_to - toOrdinal r.date_from + 1

/-- Model of `period_months`: `max(period_days / 30.44, 0.1)`, in exact rational
arithmetic (`30.44 = 3044/100`, `0.1 = 1/10`, both exactly representable;
the source's `Decimal` arithmetic agrees on these constants). -/
def periodMonths (r : Report) : ℚ :=
  max ((periodDays r : ℚ) / (3044 / 100)) (1 / 10)

/-- Category label: falsy (empty) categories are bucketed as
`"Uncategorized"`. -/
def categoryLabel (c : String) : String :=
  if c = "" then "Uncategorized" else c

/-- Per-category totals of a transaction list (the `values('category')`
`annotate(Sum('amount'))` query). -/
def categoryBreakdown (txns : List DbTxn) : List (String × ℚ) :=
  ((txns.map fun t => t.category).dedup).map fun c =>
    (categoryLabel c, ((txns.filter fun t => t.category = c).map (·.amount)).sum)

/-- Month key of a date, the `YYYY-MM` grouping key. -/
def monthKey (d : RDate) : ℕ × ℕ := (d.year, d.month)

/-- Model of `_calculate_monthly_trends`: totals per (month, transaction type)
group actually present among the transactions.  The zero-initialised
`income`/`expenses` slots of absent groups are not materialised here. -/
def monthlyTrends (txns : List DbTxn) : List ((ℕ × ℕ) × String × ℚ) :=
  ((txns.map fun t => (monthKey t.date, t.transaction_type)).dedup).map fun k =>
    (k.1, k.2,
      ((txns.filter fun t => monthKey t.date = k.1 ∧ t.transaction_type = k.2).map
        (·.amount)).sum)

/-- Distinct non-empty source platforms. -/
def dataSourcesOf (txns : List DbTxn) : List String :=
  ((txns.map (·.source_platform)).dedup).filter (· ≠ "")

/-- Model of `_detect_financial_anomalies`: within income and expense transactions
independently, flag counts of transactions whose amount strictly exceeds
three times the mean amount. -/
def detectFinancialAnomalies (incomeTxns expenseTxns : List DbTxn) : List String :=
  let part (txns : List DbTxn) (label : String) : List String :=
    if txns.isEmpty then []
    else
      let avg : ℚ := ((txns.map (·.amount)).sum) / (txns.length : ℚ)
      let large := txns.filter fun t => avg * 3 < t.amount
      if large.isEmpty then []
      else [toString large.length ++ " unusually large " ++ label ++ " transactions detected"]
  part incomeTxns "income" ++ part expenseTxns "expense"

/-- Model of `IncomeReportCreateView._calculate_report_data`: when no transaction
falls in the range, record a zero confidence score and a descriptive error
and stop; otherwise compute totals, breakdowns, trends, sources, count,
confidence and anomalies, and write them onto the report. -/
def calculateReportData (r : Report) (allTxns : List DbTxn) : Report :=
  let txns := rangeTransactions r allTxns
  if txns.isEmpty then
    { r with
        confidence_score := 0
        generation_error := "No transaction data available for the selected period" }
  else
    let incomeTxns := txns.filter fun t => t.transaction_type = "income"
    let expenseTxns := txns.filter fun t => t.transaction_type = "expense"
    let total_income := (incomeTxns.map (·.amount)).sum
    let total_expenses := (expenseTxns.map (·.amount)).sum
    let sources := dataSourcesOf txns
    { r with
        total_income := total_income
        total_expenses := total_expenses
        net_income := total_income - total_expenses
        average_monthly_income := total_income / periodMonths r
        income_breakdown := categoryBreakdown incomeTxns
        expense_breakdown := categoryBreakdown expenseTxns
        monthly_trends := monthlyTrends txns
        data_sources := sources
        transaction_count := txns.length
        confidence_score := calcConfidenceScore txns incomeTxns expenseTxns sources
        anomalies_detected := detectFinancialAnomalies incomeTxns expenseTxns }

/-- The report as `IncomeReportCreateView.create` constructs it before
aggregation runs: zeroed totals and score, empty collections, fresh
identity fields, status `generating`. -/
def mkInitialReport (user : ℕ) (dateFrom dateTo : RDate) (title : String) : Report :=
  { user := user
    date_from := dateFrom
    date_to := dateTo
    title := title
    summary := "Generating report..."
    total_income := 0
    total_expenses := 0
    net_income := 0
    average_monthly_income := 0
    income_breakdown := []
    expense_breakdown := []
    monthly_trends := []
    data_sources := []
    transaction_count := 0
    confidence_score := 0
    anomalies_detected := []
    pdf_file := none
    file_size := none
    document_hash := ""
    verification_code := ""
    is_signature_submitted := false
    signature_verification_status := "not_submitted"
    signature_submitted_at := none
    signature_approved_at := none
    signature_approved_by := none
    admin_notes := ""
    qr_code_url := ""
    status := "generating"
    generation_error := ""
    is_public := false
    access_token := ""
    expires_at := none
    download_count := 0 }

/-! ## Report identity: verification code and access token
(`IncomeReport.save` and friends in `backend/reports/models.py`) -/

/-- The population `string.ascii_uppercase + string.digits`. -/
def codeAlphabet : List Char := "ABCDEFGHIJKLMNOPQRSTUVWXYZ0123456789".data

/-- One iteration of `random.choices(uppercase + digits, k=12)`: `pick i`
is the random draw for position `i`, reduced modulo the population size. -/
def candidateCode (pick : ℕ → ℕ) : String :=
  String.mk ((List.range 12).map fun i => codeAlphabet.getD (pick i % 36) 'A')

/-- The retry loop shared by both generators: return the first candidate
not already taken.  The source loops unboundedly; fuel bounds the model,
with `none` standing for non-termination. -/
def firstFresh (cand : ℕ → String) (existing : List String) : ℕ → ℕ → Option String
  | _, 0 => none
  | k, fuel + 1 =>
    if cand k ∈ existing then firstFresh cand existing (k + 1) fuel else some (cand k)

/-- Model of `IncomeReport.generate_verification_code`: draw 12-character
uppercase/digit codes until one is free of collisions. -/
def generateVerificationCode (picks : ℕ → ℕ → ℕ) (existing : List String)
    (fuel : ℕ) : Option String :=
  firstFresh (fun k => candidateCode (picks k)) existing 0 fuel

/-- Model of `IncomeReport.generate_access_token`: draw `secrets.token_urlsafe(32)`
values (an opaque stream here) until one is free of collisions. -/
def generateAccessToken (draws : ℕ → String) (existing : List String)
    (fuel : ℕ) : Option String :=
  firstFresh draws existing 0 fuel

/-- Model of `IncomeReport.save`: issue the verification code and access token when
absent, compute the document hash once a PDF exists and no hash is stored,
and derive the QR verification URL.  `hashOf` is the storage backend's
SHA-256 of the named artifact. -/
def saveIncomeReport (picks : ℕ → ℕ → ℕ) (draws : ℕ → String) (fuel : ℕ)
    (existingCodes existingTokens : List String) (hashOf : String → String)
    (baseUrl : String) (r : Report) : Option Report :=
  let vcOpt := if r.verification_code = "" then
      generateVerificationCode picks existingCodes fuel
    else some r.verification_code
  match vcOpt with
  | none => none
  | some vc =>
    let tokOpt := if r.access_token = "" then
        generateAccessToken draws existingTokens fuel
      else some r.access_token
    match tokOpt with
    | none => none
    | some tok =>
      let dh :=
        match r.pdf_file with
        | some f => if r.document_hash = "" then hashOf f else r.document_hash
        | none => r.document_hash
      let qr := if r.qr_code_url = "" ∧ vc ≠ "" then baseUrl ++ "/verify/" ++ vc
        else r.qr_code_url
      some { r with
              verification_code := vc
              access_token := tok
              document_hash := dh
              qr_code_url := qr }

/-! ## Signature-verification operations
(`backend/reports/models.py` and `backend/reports/admin.py`) -/

/-- Model of `IncomeReport.submit_for_signature_verification`: only acts when the
report has not been submitted yet. -/
def submitForSignatureVerification (now : ℕ) (r : Report) : Report :=
  if r.is_signature_submitted = false then
    { r with
        is_signature_submitted := true
        signature_verification_status := "pending"
        signature_submitted_at := some now }
  else r

/-- Model of `IncomeReport.approve_signature`, as invoked by
`IncomeReportAdmin.approve_signature_view`: neither checks the current
status before overwriting it. -/
def approveSignature (adminUser now : ℕ) (notes : String) (r : Report) : Report :=
  { r with
      signature_verification_status := "approved"
      signature_approved_at := some now
      signature_approved_by := some adminUser
      admin_notes := notes }

/-- Model of `IncomeReport.reject_signature`, as invoked by
`IncomeReportAdmin.reject_signature_view`: likewise unconditional. -/
def rejectSignature (adminUser now : ℕ) (notes : String) (r : Report) : Report :=
  { r with
      signature_verification_status := "rejected"
      signature_approved_at := some now
      signature_approved_by := some adminUser
      admin_notes := notes }

/-! ## Report download (`download_report` in `backend/reports/views.py`) -/

/-- Outcome of a download request. -/
inductive DownloadOutcome where
  | success
  | denied
  | expiredGone
  | noPdf
deriving Repr, DecidableEq

/-- Model of `IncomeReport.is_expired`: an expiry is set and lies in the past. -/
def reportExpired (now : ℕ) (r : Report) : Bool :=
  match r.expires_at with
  | none => false
  | some e => e < now

/-- The `download_report` view: access control (public, owner, or matching
non-empty token), then expiry and artifact checks; only a served download
increments the counter, via `save(update_fields=['download_count'])`. -/
def downloadReport (requester : Option ℕ) (tokenParam : Option String) (now : ℕ)
    (r : Report) : DownloadOutcome × Report :=
  let proceed : DownloadOutcome × Report :=
    if reportExpired now r then (.expiredGone, r)
    else
      match r.pdf_file with
      | none => (.noPdf, r)
      | some _ => (.success, { r with download_count := r.download_count + 1 })
  if r.is_public = false ∧ requester ≠ some r.user then
    match tokenParam with
    | none => (.denied, r)
    | some t => if t = "" ∨ t ≠ r.access_token then (.denied, r) else proceed
  else proceed

/-- Whether a download outcome served the artifact. -/
def downloadServed : DownloadOutcome → Bool
  | .success => true
  | _ => false

/-! ## Theorems -/

/-- C1: the claim states that `_parse_amount` returns a non-negative value
for every input and that `_create_transactions` never persists a negative
amount.  The code contradicts this (and the spec's own §8 CSV scenario,
which expects the row `2024-01-16,Grocery Shopping,-1500.00,Expense` to be
stored with amount `1500.00`): only numeric inputs pass through `abs`;
string inputs keep their sign, and the materialiser stores the signed
value.  This theorem evaluates the pipeline at the failing input: the
parsed amount is `-1500` and the persisted transaction carries it. -/
theorem c1_negative_amount_persisted :
    parseAmount (.str "-1500.00") = -1500 ∧
    parseAmount (.str "(100)") = -100 ∧
    ((processorProcess
        { id := 0, user := 0, original_filename := "stmt.csv", source := "bpi",
          processing_status := "uploaded", processing_error := "",
          rows := [[("Date", "2024-01-16"), ("Description", "Grocery Shopping"),
                    ("Amount", "-1500.00"), ("Type", "Expense")]],
          pdfData := [], transactions := [] }).transactions.map Transaction.amount)
      = [-1500] := by
  have h1 : parseAmount (.str "-1500.00") = -1500 := by
    rw [show parseAmount (.str "-1500.00")
        = -1 * (((1500 : ℕ) : ℚ) + ((0 : ℕ) : ℚ) / (10 : ℚ) ^ 2)
            * (10 : ℚ) ^ (0 : ℤ) from rfl]
    norm_num
  have h2 : parseAmount (.str "(100)") = -100 := by
    rw [show parseAmount (.str "(100)")
        = -1 * ((100 : ℕ) : ℚ) * (10 : ℚ) ^ (0 : ℤ) from rfl]
    norm_num
  refine ⟨h1, h2, ?_⟩
  rw [show ((processorProcess
        { id := 0, user := 0, original_filename := "stmt.csv", source := "bpi",
          processing_status := "uploaded", processing_error := "",
          rows := [[("Date", "2024-01-16"), ("Description", "Grocery Shopping"),
                    ("Amount", "-1500.00"), ("Type", "Expense")]],
          pdfData := [], transactions := [] }).transactions.map Transaction.amount)
      = [parseAmount (.str "-1500.00")] from rfl, h1]

/-- C2 counterexample: the claim states that running the process operation
on any upload whose status is not `uploaded` leaves its transactions
unchanged.  An upload in `awaiting_review` refutes it: the view only
short-circuits on `processed` and `processing`, so the processor runs
again and materialises the rows a second time. -/
theorem c2_counterexample :
    ("awaiting_review" : String) ≠ "uploaded" ∧
    (viewProcessFileUpload
        { id := 0, user := 0, original_filename := "stmt.csv", source := "gcash",
          processing_status := "awaiting_review", processing_error := "",
          rows := [[("date", "2024-01-15"), ("amount", "5000.00")]],
          pdfData := [], transactions := [] }).transactions ≠
      ({ id := 0, user := 0, original_filename := "stmt.csv", source := "gcash",
         processing_status := "awaiting_review", processing_error := "",
         rows := [[("date", "2024-01-15"), ("amount", "5000.00")]],
         pdfData := [], transactions := [] } : Upload).transactions := by
  refine ⟨by decide, by decide⟩

/-- C2 amended: re-submission is a no-op exactly when the stored status is
`processed` or `processing`; for every other status (including
`awaiting_review` and `failed`) the processor runs again. -/
theorem c2_amended_noop (u : Upload)
    (h : u.processing_status = "processed" ∨ u.processing_status = "processing") :
    viewProcessFileUpload u = u := by
  unfold viewProcessFileUpload
  rcases h with h | h <;> simp [h]

/-- C2 amended, witness: a concrete `processed` upload is left unchanged. -/
theorem c2_amended_noop_witness :
    (({ id := 0, user := 0, original_filename := "a.csv", source := "bpi",
        processing_status := "processed", processing_error := "",
        rows := [], pdfData := [], transactions := [] } : Upload).processing_status = "processed" ∨
      ({ id := 0, user := 0, original_filename := "a.csv", source := "bpi",
         processing_status := "processed", processing_error := "",
         rows := [], pdfData := [], transactions := [] } : Upload).processing_status = "processing") ∧
    viewProcessFileUpload
        { id := 0, user := 0, original_filename := "a.csv", source := "bpi",
          processing_status := "processed", processing_error := "",
          rows := [], pdfData := [], transactions := [] }
      = { id := 0, user := 0, original_filename := "a.csv", source := "bpi",
          processing_status := "processed", processing_error := "",
          rows := [], pdfData := [], transactions := [] } :=
  ⟨Or.inl (by decide), c2_amended_noop _ (Or.inl (by decide))⟩

/-- The `> 50%` uncategorised test, reduced to integer arithmetic. -/
theorem pct50_iff (u n : ℕ) (hn : 0 < n) :
    ((50 : ℚ) < ((u : ℚ) / (n : ℚ)) * 100) ↔ n < 2 * u := by
  rw [div_mul_eq_mul_div, lt_div_iff₀ (by exact_mod_cast hn)]
  rw [show ((u : ℚ) * 100) = ((100 * u : ℕ) : ℚ) by push_cast; ring,
      show ((50 : ℚ) * (n : ℚ)) = ((50 * n : ℕ) : ℚ) by push_cast; ring,
      Nat.cast_lt]
  omega

/-- The `> 20%` uncategorised test, reduced to integer arithmetic. -/
theorem pct20_iff (u n : ℕ) (hn : 0 < n) :
    ((20 : ℚ) < ((u : ℚ) / (n : ℚ)) * 100) ↔ n < 5 * u := by
  rw [div_mul_eq_mul_div, lt_div_iff₀ (by exact_mod_cast hn)]
  rw [show ((u : ℚ) * 100) = ((100 * u : ℕ) : ℚ) by push_cast; ring,
      show ((20 : ℚ) * (n : ℚ)) = ((20 * n : ℕ) : ℚ) by push_cast; ring,
      Nat.cast_lt]
  omega

/-- C3: over a non-empty transaction set, the confidence score equals 100
minus exactly the claimed penalties (−30 under 10 transactions else −15
under 50; −15 under 2 data sources; −20 over 50% uncategorised else −10
over 20%; −40 with no income transactions), floored at 0; consequently it
always lies in [0, 100]. -/
theorem c3_confidence_score (txns incomeTxns expenseTxns : List DbTxn)
    (dataSources : List String) (h : txns ≠ []) :
    calcConfidenceScore txns incomeTxns expenseTxns dataSources
      = specConfidenceScore txns.length (uncategorizedCount txns)
          dataSources.length incomeTxns.length ∧
    0 ≤ calcConfidenceScore txns incomeTxns expenseTxns dataSources ∧
    calcConfidenceScore txns incomeTxns expenseTxns dataSources ≤ 100 := by
  have hn : 0 < txns.length := List.length_pos.mpr h
  refine ⟨?_, ?_, ?_⟩
  · unfold calcConfidenceScore specConfidenceScore
    simp only [if_pos hn, pct50_iff _ _ hn, pct20_iff _ _ hn]
    split_ifs <;> norm_num
  · exact le_max_right _ _
  · unfold calcConfidenceScore
    simp only [if_pos hn]
    split_ifs <;> norm_num [max_le_iff]

/-- C3, witness: a single categorised income transaction from one source. -/
theorem c3_confidence_score_witness :
    ([(⟨0, ⟨2024, 1, 15⟩, 5000, "income", "other", "gcash"⟩ : DbTxn)] ≠ []) ∧
    (calcConfidenceScore
        [(⟨0, ⟨2024, 1, 15⟩, 5000, "income", "other", "gcash"⟩ : DbTxn)]
        [(⟨0, ⟨2024, 1, 15⟩, 5000, "income", "other", "gcash"⟩ : DbTxn)] [] []
      = specConfidenceScore
          [(⟨0, ⟨2024, 1, 15⟩, 5000, "income", "other", "gcash"⟩ : DbTxn)].length
          (uncategorizedCount
            [(⟨0, ⟨2024, 1, 15⟩, 5000, "income", "other", "gcash"⟩ : DbTxn)])
          ([] : List String).length
          [(⟨0, ⟨2024, 1, 15⟩, 5000, "income", "other", "gcash"⟩ : DbTxn)].length ∧
     0 ≤ calcConfidenceScore
        [(⟨0, ⟨2024, 1, 15⟩, 5000, "income", "other", "gcash"⟩ : DbTxn)]
        [(⟨0, ⟨2024, 1, 15⟩, 5000, "income", "other", "gcash"⟩ : DbTxn)] [] [] ∧
     calcConfidenceScore
        [(⟨0, ⟨2024, 1, 15⟩, 5000, "income", "other", "gcash"⟩ : DbTxn)]
        [(⟨0, ⟨2024, 1, 15⟩, 5000, "income", "other", "gcash"⟩ : DbTxn)] [] [] ≤ 100) :=
  ⟨by decide, c3_confidence_score _ _ _ _ (by decide)⟩

/-- C4: whenever at least one transaction lies in the requested range, the
report's average monthly income is the computed total income divided by
`max(days_in_range / 30.44, 0.1)` with `days_in_range` the inclusive day
length of the range; the divisor never drops below `0.1`, so the division
is well-defined even for a single-day range. -/
theorem c4_average_monthly_income (r : Report) (allTxns : List DbTxn)
    (h : rangeTransactions r allTxns ≠ []) :
    (1 : ℚ) / 10 ≤ periodMonths r ∧ 0 < periodMonths r ∧
    (calculateReportData r allTxns).average_monthly_income
      = (calculateReportData r allTxns).total_income
          / max (((toOrdinal r.date_to - toOrdinal r.date_from + 1 : ℤ) : ℚ) / (3044 / 100))
              (1 / 10) := by
  have h1 : (1 : ℚ) / 10 ≤ periodMonths r := le_max_right _ _
  have hne : (rangeTransactions r allTxns).isEmpty = false := by
    cases hl : rangeTransactions r allTxns with
    | nil => exact absurd hl h
    | cons a l => rfl
  refine ⟨h1, lt_of_lt_of_le (by norm_num) h1, ?_⟩
  simp only [calculateReportData, hne, Bool.false_eq_true, if_false]
  rfl

/-- C4, witness: a single-day range containing one transaction. -/
theorem c4_average_monthly_income_witness :
    rangeTransactions (mkInitialReport 0 ⟨2024, 1, 1⟩ ⟨2024, 1, 1⟩ "t")
        [(⟨0, ⟨2024, 1, 1⟩, 5000, "income", "other", "gcash"⟩ : DbTxn)] ≠ [] ∧
    ((1 : ℚ) / 10 ≤ periodMonths (mkInitialReport 0 ⟨2024, 1, 1⟩ ⟨2024, 1, 1⟩ "t") ∧
     0 < periodMonths (mkInitialReport 0 ⟨2024, 1, 1⟩ ⟨2024, 1, 1⟩ "t") ∧
     (calculateReportData (mkInitialReport 0 ⟨2024, 1, 1⟩ ⟨2024, 1, 1⟩ "t")
         [(⟨0, ⟨2024, 1, 1⟩, 5000, "income", "other", "gcash"⟩ : DbTxn)]).average_monthly_income
       = (calculateReportData (mkInitialReport 0 ⟨2024, 1, 1⟩ ⟨2024, 1, 1⟩ "t")
           [(⟨0, ⟨2024, 1, 1⟩, 5000, "income", "other", "gcash"⟩ : DbTxn)]).total_income
           / max (((toOrdinal (⟨2024, 1, 1⟩ : RDate) - toOrdinal (⟨2024, 1, 1⟩ : RDate) + 1 : ℤ) : ℚ)
                 / (3044 / 100)) (1 / 10)) := by
  refine ⟨by decide, c4_average_monthly_income _ _ (by decide)⟩

/-- Row parsing succeeds exactly when both the date and the amount resolve
to a (truthy) value through the header synonyms. -/
theorem parseRow_isSome (row : Row) :
    (parseTransactionRow row).isSome
      = (truthyStr (findFieldValue (normalizeRow row) dateKeys)
         && truthyStr (findFieldValue (normalizeRow row) amountKeys)) := by
  unfold parseTransactionRow
  cases hd : findFieldValue (normalizeRow row) dateKeys with
  | none => simp [truthyStr, hd]
  | some dv =>
    cases ha : findFieldValue (normalizeRow row) amountKeys with
    | none =>
      by_cases hdv : dv = "" <;> simp [truthyStr, hd, ha, hdv]
    | some av =>
      by_cases hdv : dv = "" <;> by_cases hav : av = "" <;>
        simp [truthyStr, hd, ha, hdv, hav]

/-- The materialiser creates one transaction per parsed row. -/
theorem createTransactions_length (u : Upload) (datas : List TxnData) :
    (createTransactions u datas).length = datas.length := by
  simp [createTransactions]

/-- Parsing a row list keeps exactly the rows with resolvable date and
amount. -/
theorem filterMap_parseRow_length (rows : List Row) :
    (rows.filterMap parseTransactionRow).length
      = (rows.filter fun row =>
          truthyStr (findFieldValue (normalizeRow row) dateKeys)
          && truthyStr (findFieldValue (normalizeRow row) amountKeys)).length := by
  induction rows with
  | nil => rfl
  | cons r t ih =>
    have h1 := parseRow_isSome r
    cases hp : parseTransactionRow r with
    | none =>
      rw [hp] at h1
      simp only [Option.isSome_none] at h1
      simp [List.filterMap_cons, List.filter_cons, hp, ← h1, ih]
    | some d =>
      rw [hp] at h1
      simp only [Option.isSome_some] at h1
      simp [List.filterMap_cons, List.filter_cons, hp, ← h1, ih]

/-- C5: for delimited/table input, a raw row yields a parsed transaction
exactly when both a date and an amount resolve through the accepted header
synonyms (rows missing either are skipped, not errors), and the
materialiser turns each parsed row into exactly one Transaction, so the
created count equals the count of resolvable rows. -/
theorem c5_row_materialisation :
    (∀ row : Row, (parseTransactionRow row).isSome
        = (truthyStr (findFieldValue (normalizeRow row) dateKeys)
           && truthyStr (findFieldValue (normalizeRow row) amountKeys))) ∧
    ∀ (rows : List Row) (u : Upload),
      (createTransactions u (rows.filterMap parseTransactionRow)).length
        = (rows.filter fun row =>
            truthyStr (findFieldValue (normalizeRow row) dateKeys)
            && truthyStr (findFieldValue (normalizeRow row) amountKeys)).length := by
  refine ⟨parseRow_isSome, fun rows u => ?_⟩
  rw [createTransactions_length, filterMap_parseRow_length]
/-- Locating the first occurrence in a concatenation. -/
theorem firstIdxOf_append (c : Char) (xs ys : List Char) :
    firstIdxOf c (xs ++ ys)
      = (match firstIdxOf c xs with
         | some i => some i
         | none => (firstIdxOf c ys).map (· + xs.length)) := by
  induction xs with
  | nil =>
    cases h : firstIdxOf c ys <;> simp [firstIdxOf, h]
  | cons x xs ih =>
    rw [List.cons_append,
      show firstIdxOf c (x :: (xs ++ ys))
        = (if x = c then some 0 else (firstIdxOf c (xs ++ ys)).map (· + 1)) from rfl,
      show firstIdxOf c (x :: xs)
        = (if x = c then some 0 else (firstIdxOf c xs).map (· + 1)) from rfl,
      ih]
    by_cases hx : x = c
    · simp [hx]
    · simp only [hx, if_false]
      cases h : firstIdxOf c xs <;> cases h2 : firstIdxOf c ys <;>
        simp [h, h2, Nat.add_assoc]

/-- A last-occurrence index is a valid index. -/
theorem lastIdxOf_lt_length (c : Char) {cs : List Char} {j : ℕ}
    (h : lastIdxOf c cs = some j) : j < cs.length := by
  induction cs generalizing j with
  | nil => simp [lastIdxOf] at h
  | cons x xs ih =>
    simp only [lastIdxOf] at h
    cases hx : lastIdxOf c xs with
    | some k =>
      rw [hx] at h
      have := ih hx
      simp only [Option.some.injEq] at h
      simp [← h]
      omega
    | none =>
      rw [hx] at h
      by_cases hxc : x = c
      · simp [hxc] at h
        simp [← h]
      · simp [hxc] at h

/-- Searching the reversed text for the first occurrence finds the last
occurrence of the original text. -/
theorem firstIdxOf_reverse (c : Char) (cs : List Char) :
    firstIdxOf c cs.reverse = (lastIdxOf c cs).map (fun j => cs.length - 1 - j) := by
  induction cs with
  | nil => rfl
  | cons x xs ih =>
    rw [List.reverse_cons, firstIdxOf_append, ih]
    cases h : lastIdxOf c xs with
    | some j =>
      have hj := lastIdxOf_lt_length c h
      simp only [lastIdxOf, h, Option.map_some']
      simp only [Option.some.injEq, List.length_cons]
      omega
    | none =>
      by_cases hx : x = c <;>
        simp [firstIdxOf, lastIdxOf, h, hx, List.length_reverse]

/-- The greedy regex extraction coincides with the direct
first-`[`-to-last-`]` computation. -/
theorem greedyBracketExtract_eq (s : String) :
    greedyBracketExtract s = amendedExtract s := by
  simp only [greedyBracketExtract, amendedExtract, firstIdxOf_reverse]
  cases h1 : firstIdxOf '[' s.data with
  | none => cases h2 : lastIdxOf ']' s.data <;> simp
  | some i =>
    cases h2 : lastIdxOf ']' s.data with
    | none => simp
    | some j =>
      have hj := lastIdxOf_lt_length ']' h2
      simp only [Option.map_some']
      have hjj : s.data.length - 1 - (s.data.length - 1 - j) = j := by omega
      rw [hjj]

/-- C6 counterexample: the claim describes a direct-parse-first discipline
with a first-balanced-bracket fallback; at the response `"[1] x [2]"` that
discipline yields the singleton array parsed from `"[1]"`, while the code
returns the empty result (its greedy regex grabs `"[1] x [2]"`, which is
not valid JSON, and no fallback runs). -/
theorem c6_claim_order_counterexample :
    parseCategorizationResponse "[1] x [2]" = Json.arr [] ∧
    claimOrderedParse "[1] x [2]" ≠ parseCategorizationResponse "[1] x [2]" := by
  refine ⟨rfl, fun h => ?_⟩
  injection h with h2
  exact List.noConfusion h2

/-- C6 amended: the parser first extracts the substring from the first `[`
to the last `]` (dot-matches-all greedy regex) and parses that, with the
empty result on failure and no second attempt; only when no such substring
exists is the whole response parsed, again with the empty result on
failure. -/
theorem c6_amended_parse_order (s : String) :
    parseCategorizationResponse s = amendedOrderedParse s := by
  unfold parseCategorizationResponse amendedOrderedParse
  rw [greedyBracketExtract_eq]

/-- C7 counterexample: the claim states that `approved` and `rejected` are
terminal for every operation.  A rejection issued on an already-approved
report overwrites the status, because neither the model methods nor the
admin views guard on the current state. -/
theorem c7_counterexample :
    (({ mkInitialReport 0 ⟨2024, 1, 1⟩ ⟨2024, 1, 31⟩ "r" with
          is_signature_submitted := true,
          signature_verification_status := "approved" } : Report).signature_verification_status
        = "approved") ∧
    (rejectSignature 7 5 "bad"
        { mkInitialReport 0 ⟨2024, 1, 1⟩ ⟨2024, 1, 31⟩ "r" with
          is_signature_submitted := true,
          signature_verification_status := "approved" }).signature_verification_status
      = "rejected" ∧
    ("rejected" : String) ≠ "approved" :=
  ⟨rfl, rfl, by decide⟩

/-- C7 amended: once a report is marked submitted, the submit operation
never changes it (so it cannot leave `approved` or `rejected`); but the
approve and reject operations overwrite the status unconditionally, so
`approved` and `rejected` are not terminal under admin actions. -/
theorem c7_amended_signature_states (r : Report) (adminUser now : ℕ) (notes : String)
    (h : r.is_signature_submitted = true) :
    submitForSignatureVerification now r = r ∧
    (approveSignature adminUser now notes r).signature_verification_status = "approved" ∧
    (rejectSignature adminUser now notes r).signature_verification_status = "rejected" := by
  refine ⟨?_, rfl, rfl⟩
  unfold submitForSignatureVerification
  rw [h]
  simp

/-- C7 amended, witness: a submitted, approved report. -/
theorem c7_amended_signature_states_witness :
    (({ mkInitialReport 3 ⟨2024, 2, 1⟩ ⟨2024, 2, 28⟩ "w" with
          is_signature_submitted := true,
          signature_verification_status := "approved" } : Report).is_signature_submitted
        = true) ∧
    (submitForSignatureVerification 9
        { mkInitialReport 3 ⟨2024, 2, 1⟩ ⟨2024, 2, 28⟩ "w" with
          is_signature_submitted := true,
          signature_verification_status := "approved" }
      = { mkInitialReport 3 ⟨2024, 2, 1⟩ ⟨2024, 2, 28⟩ "w" with
          is_signature_submitted := true,
          signature_verification_status := "approved" } ∧
     (approveSignature 4 9 "n"
        { mkInitialReport 3 ⟨2024, 2, 1⟩ ⟨2024, 2, 28⟩ "w" with
          is_signature_submitted := true,
          signature_verification_status := "approved" }).signature_verification_status
       = "approved" ∧
     (rejectSignature 4 9 "n"
        { mkInitialReport 3 ⟨2024, 2, 1⟩ ⟨2024, 2, 28⟩ "w" with
          is_signature_submitted := true,
          signature_verification_status := "approved" }).signature_verification_status
       = "rejected") :=
  ⟨rfl, c7_amended_signature_states _ _ _ _ rfl⟩

/-- C8: when no transaction of the owner falls inside the requested range,
aggregation records confidence 0 and the descriptive error message and
changes nothing else on the report (all totals, breakdowns, trends and
anomaly fields keep their previous — initially zeroed — values), returning
normally. -/
theorem c8_no_data_short_circuit (r : Report) (allTxns : List DbTxn)
    (h : rangeTransactions r allTxns = []) :
    calculateReportData r allTxns
      = { r with
            confidence_score := 0
            generation_error := "No transaction data available for the selected period" } := by
  simp only [calculateReportData, h, List.isEmpty_nil, if_true]

/-- C8, witness: a fresh report over an empty transaction store. -/
theorem c8_no_data_short_circuit_witness :
    rangeTransactions (mkInitialReport 0 ⟨2024, 2, 1⟩ ⟨2024, 2, 10⟩ "t") [] = [] ∧
    calculateReportData (mkInitialReport 0 ⟨2024, 2, 1⟩ ⟨2024, 2, 10⟩ "t") []
      = { mkInitialReport 0 ⟨2024, 2, 1⟩ ⟨2024, 2, 10⟩ "t" with
            confidence_score := 0
            generation_error := "No transaction data available for the selected period" } :=
  ⟨rfl, c8_no_data_short_circuit _ _ rfl⟩

/-- The retry loop returns a candidate outside the taken set. -/
theorem firstFresh_spec (cand : ℕ → String) (existing : List String) :
    ∀ (fuel k : ℕ) (c : String), firstFresh cand existing k fuel = some c →
      c ∉ existing ∧ ∃ j, c = cand j := by
  intro fuel
  induction fuel with
  | zero => intro k c h; exact absurd h (by simp [firstFresh])
  | succ n ih =>
    intro k c h
    rw [show firstFresh cand existing k (n + 1)
        = (if cand k ∈ existing then firstFresh cand existing (k + 1) n
           else some (cand k)) from rfl] at h
    by_cases hm : cand k ∈ existing
    · rw [if_pos hm] at h
      exact ih (k + 1) c h
    · rw [if_neg hm] at h
      injection h with h2
      subst h2
      exact ⟨hm, k, rfl⟩

/-- A generated code candidate has exactly 12 characters. -/
theorem candidateCode_length (pick : ℕ → ℕ) : (candidateCode pick).length = 12 := by
  simp [candidateCode, String.length]

/-- A generated code candidate draws from the uppercase/digit population. -/
theorem candidateCode_chars (pick : ℕ → ℕ) :
    ∀ ch ∈ (candidateCode pick).data, ch ∈ codeAlphabet := by
  intro ch hch
  simp only [candidateCode, List.mem_map, List.mem_range] at hch
  obtain ⟨i, _, rfl⟩ := hch
  have hn : pick i % 36 < codeAlphabet.length := by
    have h36 : codeAlphabet.length = 36 := rfl
    have := Nat.mod_lt (pick i) (show 0 < 36 by norm_num)
    omega
  rw [List.getD_eq_getElem _ _ hn]
  exact List.getElem_mem _

/-- C9: on a successful save, a report that already carries a verification
code or access token keeps it; a report without one receives a
verification code of exactly 12 uppercase/digit characters differing from
every existing code (collisions are retried), and an access token
differing from every existing token. -/
theorem c9_identity_issuance (picks : ℕ → ℕ → ℕ) (draws : ℕ → String) (fuel : ℕ)
    (existingCodes existingTokens : List String) (hashOf : String → String)
    (baseUrl : String) (r rr : Report)
    (hsave : saveIncomeReport picks draws fuel existingCodes existingTokens hashOf baseUrl r
      = some rr) :
    (r.verification_code ≠ "" → rr.verification_code = r.verification_code) ∧
    (r.verification_code = "" →
        rr.verification_code ∉ existingCodes ∧
        rr.verification_code.length = 12 ∧
        ∀ ch ∈ rr.verification_code.data, ch ∈ codeAlphabet) ∧
    (r.access_token ≠ "" → rr.access_token = r.access_token) ∧
    (r.access_token = "" → rr.access_token ∉ existingTokens) := by
  simp only [saveIncomeReport] at hsave
  cases hvc : (if r.verification_code = "" then generateVerificationCode picks existingCodes fuel
      else some r.verification_code) with
  | none => rw [hvc] at hsave; exact absurd hsave (by simp)
  | some vc =>
    rw [hvc] at hsave
    cases htok : (if r.access_token = "" then generateAccessToken draws existingTokens fuel
        else some r.access_token) with
    | none => rw [htok] at hsave; exact absurd hsave (by simp)
    | some tok =>
      rw [htok] at hsave
      injection hsave with hrr
      subst hrr
      refine ⟨?_, ?_, ?_, ?_⟩
      · intro hne
        rw [if_neg hne] at hvc
        injection hvc with h
        exact h.symm
      · intro hempty
        rw [if_pos hempty] at hvc
        unfold generateVerificationCode at hvc
        obtain ⟨hnot, j, hj⟩ := firstFresh_spec _ existingCodes fuel 0 vc hvc
        subst hj
        exact ⟨hnot, candidateCode_length _, candidateCode_chars _⟩
      · intro hne
        rw [if_neg hne] at htok
        injection htok with h
        exact h.symm
      · intro hempty
        rw [if_pos hempty] at htok
        unfold generateAccessToken at htok
        obtain ⟨hnot, _, _⟩ := firstFresh_spec draws existingTokens fuel 0 tok htok
        exact hnot

/-- C9, witness: a fresh report with constant seed streams. -/
theorem c9_identity_issuance_witness :
    saveIncomeReport (fun _ _ => 0) (fun _ => "tok0") 1 [] []
        (fun _ => "h") "https://x" (mkInitialReport 0 ⟨2024, 1, 1⟩ ⟨2024, 1, 31⟩ "t")
      = some { mkInitialReport 0 ⟨2024, 1, 1⟩ ⟨2024, 1, 31⟩ "t" with
                verification_code := "AAAAAAAAAAAA"
                access_token := "tok0"
                qr_code_url := "https://x/verify/AAAAAAAAAAAA" } ∧
    (((mkInitialReport 0 ⟨2024, 1, 1⟩ ⟨2024, 1, 31⟩ "t").verification_code ≠ "" →
        ({ mkInitialReport 0 ⟨2024, 1, 1⟩ ⟨2024, 1, 31⟩ "t" with
            verification_code := "AAAAAAAAAAAA"
            access_token := "tok0"
            qr_code_url := "https://x/verify/AAAAAAAAAAAA" } : Report).verification_code
          = (mkInitialReport 0 ⟨2024, 1, 1⟩ ⟨2024, 1, 31⟩ "t").verification_code) ∧
     ((mkInitialReport 0 ⟨2024, 1, 1⟩ ⟨2024, 1, 31⟩ "t").verification_code = "" →
        ({ mkInitialReport 0 ⟨2024, 1, 1⟩ ⟨2024, 1, 31⟩ "t" with
            verification_code := "AAAAAAAAAAAA"
            access_token := "tok0"
            qr_code_url := "https://x/verify/AAAAAAAAAAAA" } : Report).verification_code ∉
            ([] : List String) ∧
        ({ mkInitialReport 0 ⟨2024, 1, 1⟩ ⟨2024, 1, 31⟩ "t" with
            verification_code := "AAAAAAAAAAAA"
            access_token := "tok0"
            qr_code_url := "https://x/verify/AAAAAAAAAAAA" } : Report).verification_code.length
          = 12 ∧
        ∀ ch ∈ ({ mkInitialReport 0 ⟨2024, 1, 1⟩ ⟨2024, 1, 31⟩ "t" with
            verification_code := "AAAAAAAAAAAA"
            access_token := "tok0"
            qr_code_url := "https://x/verify/AAAAAAAAAAAA" } : Report).verification_code.data,
          ch ∈ codeAlphabet) ∧
     ((mkInitialReport 0 ⟨2024, 1, 1⟩ ⟨2024, 1, 31⟩ "t").access_token ≠ "" →
        ({ mkInitialReport 0 ⟨2024, 1, 1⟩ ⟨2024, 1, 31⟩ "t" with
            verification_code := "AAAAAAAAAAAA"
            access_token := "tok0"
            qr_code_url := "https://x/verify/AAAAAAAAAAAA" } : Report).access_token
          = (mkInitialReport 0 ⟨2024, 1, 1⟩ ⟨2024, 1, 31⟩ "t").access_token) ∧
     ((mkInitialReport 0 ⟨2024, 1, 1⟩ ⟨2024, 1, 31⟩ "t").access_token = "" →
        ({ mkInitialReport 0 ⟨2024, 1, 1⟩ ⟨2024, 1, 31⟩ "t" with
            verification_code := "AAAAAAAAAAAA"
            access_token := "tok0"
            qr_code_url := "https://x/verify/AAAAAAAAAAAA" } : Report).access_token ∉
            ([] : List String))) := by
  have hsave : saveIncomeReport (fun _ _ => 0) (fun _ => "tok0") 1 [] []
      (fun _ => "h") "https://x" (mkInitialReport 0 ⟨2024, 1, 1⟩ ⟨2024, 1, 31⟩ "t")
      = some { mkInitialReport 0 ⟨2024, 1, 1⟩ ⟨2024, 1, 31⟩ "t" with
                verification_code := "AAAAAAAAAAAA"
                access_token := "tok0"
                qr_code_url := "https://x/verify/AAAAAAAAAAAA" } := by decide
  exact ⟨hsave, c9_identity_issuance _ _ _ _ _ _ _ _ _ hsave⟩

/-- C10: a download mutates the report exactly when it is served, and then
only by incrementing the download counter; every refused download (denied
access, expired report, missing artifact) leaves the report unchanged. -/
theorem c10_download_frame (requester : Option ℕ) (tokenParam : Option String)
    (now : ℕ) (r : Report) :
    (downloadReport requester tokenParam now r).2
      = (if downloadServed (downloadReport requester tokenParam now r).1 = true
         then { r with download_count := r.download_count + 1 } else r) := by
  rcases tokenParam with _ | t <;>
    by_cases hexp : reportExpired now r <;>
      rcases hp : r.pdf_file with _ | f <;>
        by_cases hacc : r.is_public = false ∧ requester ≠ some r.user <;>
          simp [downloadReport, downloadServed, hexp, hp, hacc] <;>
            split_ifs <;> simp_all [downloadServed]

end Kitako
